import Mathlib

/-!
Verification of the CRDT data-model layer (`crdt_types.hpp`) and of the
merge-engine semantics described in the design document of this repository.

The type definitions (`CrdtNodeId`, `CrdtKey`, `Change`) are embedded
directly from `src/crdt_types.hpp`.  The Merge Engine (`apply`), the
Column Version Table and the Change Log are not present under `src/`
(the supplied fragment is only the data-model layer), so they are
modelled from the specification, section 4.2–4.4; every such definition
carries a doc comment starting with `Modelled from the spec:`.

Machine integers are embedded as `Fin (2^64)` / `Fin (2^32)`: the code
performs no arithmetic on them, only comparisons, so overflow never
arises and the embedding only has to provide the value range and the
total order.
-/

/-- Unsigned 64-bit value, the embedding of C++ `uint64_t`. -/
abbrev U64 := Fin (2^64)

/-- Unsigned 32-bit value, the embedding of C++ `uint32_t`. -/
abbrev U32 := Fin (2^32)

/-- Node identifier type: `using CrdtNodeId = uint64_t;` (crdt_types.hpp line 11). -/
abbrev CrdtNodeId := U64

/-- Column key type (field name): `using CrdtKey = std::string;` (crdt_types.hpp line 14). -/
abbrev CrdtKey := String

/-- Embedding of `struct Change<K, V>` (crdt_types.hpp lines 22–42): a single
change in the CRDT, used for synchronization between nodes.  `col_name = none`
represents a tombstone of the record; `value = none` represents deletion of
the column.  The two trailing fields are the local bookkeeping fields of the
C++ struct: `local_db_version` (sync optimization) and the ephemeral `flags`. -/
structure Change (K V : Type) where
  record_id : K
  col_name : Option CrdtKey
  value : Option V
  col_version : U64
  db_version : U64
  node_id : CrdtNodeId
  local_db_version : U64
  flags : U32
  deriving DecidableEq

/-- Embedding of the parameterized constructor
`Change(K rid, std::optional<CrdtKey> cname, std::optional<V> val, uint64_t cver,
uint64_t dver, CrdtNodeId nid, uint64_t ldb_ver = 0, uint32_t f = 0)`
(crdt_types.hpp lines 38–41), with all eight arguments given explicitly. -/
def Change.make {K V : Type} (rid : K) (cname : Option CrdtKey) (val : Option V)
    (cver : U64) (dver : U64) (nid : CrdtNodeId) (ldb_ver : U64) (f : U32) :
    Change K V :=
  ⟨rid, cname, val, cver, dver, nid, ldb_ver, f⟩

/-- Embedding of a call to the parameterized constructor with the two trailing
defaulted arguments omitted: C++ substitutes the default values `ldb_ver = 0`
and `f = 0`. -/
def Change.makeDefault {K V : Type} (rid : K) (cname : Option CrdtKey)
    (val : Option V) (cver : U64) (dver : U64) (nid : CrdtNodeId) : Change K V :=
  Change.make rid cname val cver dver nid 0 0

/-- The conflict-resolution triple of a change: `(col_version, db_version, node_id)`. -/
def Change.triple {K V : Type} (c : Change K V) : U64 × U64 × CrdtNodeId :=
  (c.col_version, c.db_version, c.node_id)

/-- Modelled from the spec: `Outcome ∈ {Applied, Superseded, Ignored}` of the
Merge Engine operation `apply(change) -> Outcome` (spec §4.2); the Merge Engine
implementation is not part of the supplied source fragment. -/
inductive Outcome : Type where
  | Applied : Outcome
  | Superseded : Outcome
  | Ignored : Outcome
  deriving DecidableEq

/-- Modelled from the spec: one row of the Column Version Table (spec §4.3),
`(record_id, col_name) -> (col_version, db_version, node_id, value_or_tombstone)`;
the table implementation is not part of the supplied source fragment. -/
structure Entry (V : Type) where
  col_version : U64
  db_version : U64
  node_id : CrdtNodeId
  value : Option V
  deriving DecidableEq

/-- The conflict-resolution triple recorded in a stored entry. -/
def Entry.triple {V : Type} (e : Entry V) : U64 × U64 × CrdtNodeId :=
  (e.col_version, e.db_version, e.node_id)

/-- The Column Version Table entry a change wins with: its triple and value. -/
def Change.entry {K V : Type} (c : Change K V) : Entry V :=
  ⟨c.col_version, c.db_version, c.node_id, c.value⟩

/-- Modelled from the spec: the Column Version Table as a map
`(record_id, col_name) -> entry` (spec §4.3). -/
def Table (K V : Type) : Type := K → Option CrdtKey → Option (Entry V)

/-- Modelled from the spec: the local state the Merge Engine reads and writes —
the authoritative current-winner table (spec §4.3) together with the
append-only Change Log (spec §4.4). -/
structure CrdtState (K V : Type) where
  table : Table K V
  log : List (Change K V)

/-- Modelled from the spec: the `set` operation of the Column Version Table,
used only by the Merge Engine (spec §4.3). -/
def setEntry {K V : Type} [DecidableEq K] (t : Table K V) (rid : K)
    (cn : Option CrdtKey) (e : Entry V) : Table K V :=
  fun r n => if r = rid ∧ n = cn then some e else t r n

/-- Modelled from the spec: the lexicographic comparison of spec §4.2 step 2 —
higher `col_version` wins; if equal, higher `db_version` wins; if still equal,
higher `node_id` wins.  `tripleLtB a b = true` means `b` wins over `a`. -/
def tripleLtB (a b : U64 × U64 × CrdtNodeId) : Bool :=
  if a.1 = b.1 then
    if a.2.1 = b.2.1 then decide (a.2.2 < b.2.2)
    else decide (a.2.1 < b.2.1)
  else decide (a.1 < b.1)

/-- Modelled from the spec: the record-level tombstone precedence check of
spec §4.2 step 5 — before applying a column-level change, the record's own
tombstone entry (`col_name = none`) is consulted; if its `col_version` is
greater than the incoming column change's `col_version` the change is to be
`Ignored`.  Returns `true` when the change may proceed to steps 1–4. -/
def tombOk {K V : Type} (t : Table K V) (c : Change K V) : Bool :=
  match c.col_name with
  | none => true
  | some _ =>
    match t c.record_id none with
    | none => true
    | some tomb => !(decide (c.col_version < tomb.col_version))

/-- Modelled from the spec: steps 1–2 of spec §4.2 — if no local entry exists
for `(record_id, col_name)` the change applies unconditionally; else the
incoming change wins exactly when its triple is lexicographically greater
than the stored one. -/
def wins {K V : Type} (t : Table K V) (c : Change K V) : Bool :=
  match t c.record_id c.col_name with
  | none => true
  | some e => tripleLtB e.triple c.triple

/-- Modelled from the spec: the Merge Engine operation
`apply(change) -> Outcome` (spec §4.2).  Step 5 (tombstone precedence) runs
first for column-level changes; then steps 1–4: a winning change overwrites
the stored entry, is appended to the Change Log, and yields `Applied`; a
losing change is discarded with `Superseded`. -/
def applyChange {K V : Type} [DecidableEq K] (s : CrdtState K V)
    (c : Change K V) : CrdtState K V × Outcome :=
  if tombOk s.table c then
    if wins s.table c then
      (⟨setEntry s.table c.record_id c.col_name c.entry, s.log ++ [c]⟩,
        Outcome.Applied)
    else (s, Outcome.Superseded)
  else (s, Outcome.Ignored)

/-- One per-key merge step: how the stored entry at the change's own key
evolves when the tombstone check passes (used to characterize `applyChange`). -/
def oStep {K V : Type} (cur : Option (Entry V)) (c : Change K V) :
    Option (Entry V) :=
  match cur with
  | none => some c.entry
  | some e => if tripleLtB e.triple c.triple then some c.entry else some e

/-- The empty local state: no table entries, empty log. -/
def emptyState (K V : Type) : CrdtState K V :=
  ⟨fun _ _ => none, []⟩

/-- Concrete input: the record-level tombstone of record 7 at `col_version = 5`
(the spec §8 tombstone-dominance scenario, with the tombstone at 5). -/
def tombChange : Change Nat String := Change.make 7 none none 5 20 1 0 0

/-- Concrete input: the state holding exactly the record tombstone of record 7
(the result of applying `tombChange` to the empty state). -/
def tombedState : CrdtState Nat String :=
  ⟨setEntry (emptyState Nat String).table 7 none tombChange.entry, [tombChange]⟩

/-- Concrete input: a stale column-level edit of record 7 at `col_version = 3`,
arriving after the record tombstone at `col_version = 5`. -/
def staleCol : Change Nat String := Change.make 7 (some "name") (some "x") 3 10 2 0 0

/-- Concrete input: a low-versioned column entry for record 7 (applied before
the tombstone, so a local column entry exists alongside the tombstone). -/
def lowCol : Change Nat String := Change.make 7 (some "name") (some "old") 1 5 1 0 0

/-- Concrete input: node A (`node_id = 1`) sets `"name" = "Alice"` on record 42
at `col_version = 1, db_version = 10` (the spec §8 convergence scenario). -/
def cA : Change Nat String := Change.make 42 (some "name") (some "Alice") 1 10 1 0 0

/-- Concrete input: node B (`node_id = 2`) concurrently sets `"name" = "Bob"`
at `col_version = 1, db_version = 11` (the spec §8 convergence scenario). -/
def cB : Change Nat String := Change.make 42 (some "name") (some "Bob") 1 11 2 0 0

/-- Concrete input: the state holding exactly node A's write on record 42
(the result of applying `cA` to the empty state). -/
def sA : CrdtState Nat String :=
  ⟨setEntry (emptyState Nat String).table 42 (some "name") cA.entry, [cA]⟩

/-- Concrete input: a state in which record 7 carries both a column entry at
`col_version = 1` and a record tombstone at `col_version = 5` (the result of
applying `lowCol` and then `tombChange` to the empty state). -/
def s2 : CrdtState Nat String :=
  ⟨setEntry (setEntry (emptyState Nat String).table 7 (some "name") lowCol.entry)
      7 none tombChange.entry,
    [lowCol, tombChange]⟩

/-! ## Order facts about the lexicographic comparison -/

lemma tripleLtB_iff (a b : U64 × U64 × CrdtNodeId) :
    tripleLtB a b = true ↔
      (a.1.val < b.1.val ∨ (a.1.val = b.1.val ∧
        (a.2.1.val < b.2.1.val ∨ (a.2.1.val = b.2.1.val ∧ a.2.2.val < b.2.2.val)))) := by
  unfold tripleLtB
  split_ifs with h1 h2
  · simp only [Fin.ext_iff] at h1 h2
    simp only [decide_eq_true_eq, Fin.lt_def]
    omega
  · simp only [Fin.ext_iff] at h1 h2
    simp only [decide_eq_true_eq, Fin.lt_def]
    omega
  · simp only [Fin.ext_iff] at h1
    simp only [decide_eq_true_eq, Fin.lt_def]
    omega

lemma triple_ne_iff (a b : U64 × U64 × CrdtNodeId) :
    a ≠ b ↔ ¬(a.1.val = b.1.val ∧ a.2.1.val = b.2.1.val ∧ a.2.2.val = b.2.2.val) := by
  simp [Prod.ext_iff, Fin.ext_iff]

lemma tripleLt_irrefl (a : U64 × U64 × CrdtNodeId) : tripleLtB a a = false := by
  cases h : tripleLtB a a
  · rfl
  · rw [tripleLtB_iff] at h
    omega

lemma tripleLt_asymm {a b : U64 × U64 × CrdtNodeId} (h : tripleLtB a b = true) :
    tripleLtB b a = false := by
  cases h2 : tripleLtB b a
  · rfl
  · rw [tripleLtB_iff] at h h2
    omega

lemma tripleLt_trans {a b c : U64 × U64 × CrdtNodeId} (h1 : tripleLtB a b = true)
    (h2 : tripleLtB b c = true) : tripleLtB a c = true := by
  rw [tripleLtB_iff] at h1 h2 ⊢
  omega

lemma tripleLt_total {a b : U64 × U64 × CrdtNodeId} (h : a ≠ b) :
    tripleLtB a b = true ∨ tripleLtB b a = true := by
  rw [triple_ne_iff] at h
  rw [tripleLtB_iff, tripleLtB_iff]
  omega

lemma change_entry_triple {K V : Type} (c : Change K V) :
    (Change.entry c).triple = c.triple := rfl

/-! ## Characterization of the merge step -/

lemma applyChange_table_pt {K V : Type} [DecidableEq K] (s : CrdtState K V)
    (c : Change K V) (r : K) (n : Option CrdtKey) :
    ((applyChange s c).1).table r n =
      if r = c.record_id ∧ n = c.col_name ∧ tombOk s.table c = true then
        oStep (s.table r n) c
      else s.table r n := by
  by_cases htomb : tombOk s.table c = true
  · by_cases hk : r = c.record_id ∧ n = c.col_name
    · obtain ⟨hkr, hkn⟩ := hk
      subst hkr
      subst hkn
      rw [if_pos ⟨rfl, rfl, htomb⟩]
      unfold applyChange
      rw [if_pos htomb]
      cases he : s.table c.record_id c.col_name with
      | none =>
        have hw : wins s.table c = true := by simp [wins, he]
        rw [if_pos hw]
        simp [setEntry, oStep, he]
      | some e =>
        by_cases hlt : tripleLtB e.triple c.triple = true
        · have hw : wins s.table c = true := by simp [wins, he, hlt]
          rw [if_pos hw]
          simp [setEntry, oStep, he, hlt]
        · have hw : ¬wins s.table c = true := by simp [wins, he, hlt]
          rw [if_neg hw]
          simp only [Bool.not_eq_true] at hlt
          simp [oStep, he, hlt]
    · rw [if_neg (fun h => hk ⟨h.1, h.2.1⟩)]
      unfold applyChange
      rw [if_pos htomb]
      by_cases hw : wins s.table c = true
      · rw [if_pos hw]
        show setEntry s.table c.record_id c.col_name c.entry r n = _
        unfold setEntry
        rw [if_neg hk]
      · rw [if_neg hw]
  · rw [if_neg (fun h => htomb h.2.2)]
    unfold applyChange
    rw [if_neg htomb]

lemma applyChange_log {K V : Type} [DecidableEq K] (s : CrdtState K V)
    (c : Change K V) :
    ((applyChange s c).1).log = s.log ∨
      ((applyChange s c).1).log = s.log ++ [c] := by
  unfold applyChange
  by_cases htomb : tombOk s.table c = true
  · rw [if_pos htomb]
    by_cases hw : wins s.table c = true
    · rw [if_pos hw]
      exact Or.inr rfl
    · rw [if_neg hw]
      exact Or.inl rfl
  · rw [if_neg htomb]
    exact Or.inl rfl

lemma tombOk_frame {K V : Type} (t t' : Table K V) (c : Change K V)
    (h : t c.record_id none = t' c.record_id none) : tombOk t c = tombOk t' c := by
  unfold tombOk
  cases c.col_name with
  | none => rfl
  | some x => rw [h]

lemma tombOk_applyChange_frame {K V : Type} [DecidableEq K] (s : CrdtState K V)
    (c' c : Change K V) (hn : c'.col_name = c.col_name) :
    tombOk ((applyChange s c').1).table c = tombOk s.table c := by
  cases hc : c.col_name with
  | none =>
    unfold tombOk
    rw [hc]
  | some x =>
    apply tombOk_frame
    rw [applyChange_table_pt, if_neg]
    rintro ⟨-, h2, -⟩
    rw [hn, hc] at h2
    exact Option.noConfusion h2

lemma oStep_comm_aux {K V : Type} (cur : Option (Entry V)) (c1 c2 : Change K V)
    (h : tripleLtB c1.triple c2.triple = true) :
    oStep (oStep cur c1) c2 = oStep (oStep cur c2) c1 := by
  have h' : tripleLtB c2.triple c1.triple = false := tripleLt_asymm h
  cases cur with
  | none => simp [oStep, change_entry_triple, h, h']
  | some e =>
    by_cases h1 : tripleLtB e.triple c1.triple = true
    · have h2 : tripleLtB e.triple c2.triple = true := tripleLt_trans h1 h
      simp [oStep, change_entry_triple, h, h', h1, h2]
    · by_cases h2 : tripleLtB e.triple c2.triple = true
      · simp only [Bool.not_eq_true] at h1
        simp [oStep, change_entry_triple, h', h1, h2]
      · simp only [Bool.not_eq_true] at h1 h2
        simp [oStep, h1, h2]

lemma oStep_comm {K V : Type} (cur : Option (Entry V)) (c1 c2 : Change K V)
    (hne : c1.triple ≠ c2.triple) :
    oStep (oStep cur c1) c2 = oStep (oStep cur c2) c1 := by
  rcases tripleLt_total hne with h | h
  · exact oStep_comm_aux cur c1 c2 h
  · exact (oStep_comm_aux cur c2 c1 h).symm

lemma applyChange_comm_core {K V : Type} [DecidableEq K] (s : CrdtState K V)
    (c1 c2 : Change K V) (hr : c1.record_id = c2.record_id)
    (hn : c1.col_name = c2.col_name) (hne : c1.triple ≠ c2.triple) :
    ((applyChange (applyChange s c1).1 c2).1).table =
      ((applyChange (applyChange s c2).1 c1).1).table := by
  funext r n
  have ht2 : tombOk ((applyChange s c1).1).table c2 = tombOk s.table c2 :=
    tombOk_applyChange_frame s c1 c2 hn
  have ht1 : tombOk ((applyChange s c2).1).table c1 = tombOk s.table c1 :=
    tombOk_applyChange_frame s c2 c1 hn.symm
  simp only [applyChange_table_pt, ht1, ht2, ← hr, ← hn]
  by_cases hk : r = c1.record_id ∧ n = c1.col_name
  · obtain ⟨hkr, hkn⟩ := hk
    subst hkr
    subst hkn
    by_cases t1 : tombOk s.table c1 = true
    · by_cases t2 : tombOk s.table c2 = true
      · simp only [t1, t2, and_true, and_self, if_true]
        exact oStep_comm (s.table c1.record_id c1.col_name) c1 c2 hne
      · simp [t1, t2]
    · by_cases t2 : tombOk s.table c2 = true
      · simp [t1, t2]
      · simp [t1, t2]
  · have hcond : ∀ (P : Prop), ¬(r = c1.record_id ∧ n = c1.col_name ∧ P) :=
      fun P h => hk ⟨h.1, h.2.1⟩
    simp [hcond]

lemma applyChange_applied {K V : Type} [DecidableEq K] (s : CrdtState K V)
    (c : Change K V) (htomb : tombOk s.table c = true) (hw : wins s.table c = true) :
    applyChange s c =
      (⟨setEntry s.table c.record_id c.col_name c.entry, s.log ++ [c]⟩,
        Outcome.Applied) := by
  unfold applyChange
  rw [if_pos htomb, if_pos hw]

lemma applyChange_superseded {K V : Type} [DecidableEq K] (s : CrdtState K V)
    (c : Change K V) (htomb : tombOk s.table c = true) (hw : wins s.table c = false) :
    applyChange s c = (s, Outcome.Superseded) := by
  unfold applyChange
  rw [if_pos htomb, if_neg (by simp [hw])]

lemma applyChange_ignored {K V : Type} [DecidableEq K] (s : CrdtState K V)
    (c : Change K V) (htomb : tombOk s.table c = false) :
    applyChange s c = (s, Outcome.Ignored) := by
  unfold applyChange
  rw [if_neg (by simp [htomb])]

lemma wins_after_store {K V : Type} [DecidableEq K] (s : CrdtState K V)
    (c : Change K V) :
    wins (setEntry s.table c.record_id c.col_name c.entry) c = false := by
  unfold wins
  have hlook : setEntry s.table c.record_id c.col_name c.entry c.record_id c.col_name
      = some c.entry := by
    unfold setEntry
    rw [if_pos ⟨rfl, rfl⟩]
  rw [hlook]
  simp [change_entry_triple, tripleLt_irrefl]

lemma applyChange_idem_core {K V : Type} [DecidableEq K] (s : CrdtState K V)
    (c : Change K V) :
    applyChange (applyChange s c).1 c =
      ((applyChange s c).1,
        if (applyChange s c).2 = Outcome.Ignored then Outcome.Ignored
        else Outcome.Superseded) := by
  by_cases htomb : tombOk s.table c = true
  · by_cases hw : wins s.table c = true
    · have h1 := applyChange_applied s c htomb hw
      have htomb2 : tombOk ((applyChange s c).1).table c = true :=
        (tombOk_applyChange_frame s c c rfl).trans htomb
      rw [h1] at htomb2
      have hw2 := wins_after_store s c
      rw [h1]
      simp only []
      rw [applyChange_superseded _ c htomb2 hw2]
      simp
    · have h1 := applyChange_superseded s c htomb
        (by simp only [Bool.not_eq_true] at hw; exact hw)
      rw [h1]
      simp only []
      rw [h1]
      simp
  · have h1 := applyChange_ignored s c
      (by simp only [Bool.not_eq_true] at htomb; exact htomb)
    rw [h1]
    simp only []
    rw [h1]
    simp

/-! ## Claim theorems -/

/-- C1 counterexample: the claim that no constructible `Change` has
`col_name = none` together with `value = some v` is false — `Change` is a
struct with two independent `Option` fields, and its constructor performs no
validation, so such a value is constructible. -/
theorem change_none_with_value_constructible :
    ∃ c : Change Nat String, c.col_name = none ∧ ∃ v, c.value = some v :=
  ⟨Change.make 7 none (some "x") 1 1 1 0 0, rfl, "x", rfl⟩

/-- C1 (amended): in the code the four semantic cases are encoded as two
independent optionals, not as a closed variant, so the illegal record-level
combination is representable: for every value `v` the constructor accepts
`col_name = none` with `value = some v` and stores both unchanged. -/
theorem change_two_optionals_representable (v : String) :
    (Change.make 7 none (some v) 1 1 1 0 0 : Change Nat String).col_name = none ∧
    (Change.make 7 none (some v) 1 1 1 0 0 : Change Nat String).value = some v :=
  ⟨rfl, rfl⟩

/-- C2: Merge Engine `apply` is commutative — for two changes to the same
`(record_id, col_name)` key with different `(col_version, db_version, node_id)`
triples, applying them in either order yields the same final stored state
(the Column Version Table, which is the stored current-winner state; the
Change Log merely records arrival history). -/
theorem apply_commutative {K V : Type} [DecidableEq K] (s : CrdtState K V)
    (c1 c2 : Change K V) (hr : c1.record_id = c2.record_id)
    (hn : c1.col_name = c2.col_name) (hne : c1.triple ≠ c2.triple) :
    ((applyChange (applyChange s c1).1 c2).1).table =
      ((applyChange (applyChange s c2).1 c1).1).table :=
  applyChange_comm_core s c1 c2 hr hn hne

/-- Witness for C2 at the spec §8 scenario: Alice/Bob writes to record 42 in
either order converge to the same table. -/
theorem apply_commutative_witness :
    ((applyChange (applyChange (emptyState Nat String) cA).1 cB).1).table =
      ((applyChange (applyChange (emptyState Nat String) cB).1 cA).1).table :=
  apply_commutative (emptyState Nat String) cA cB rfl rfl (by decide)

/-- C3 counterexample: the claim that the second identical `apply(c)` always
returns `Superseded` is false — for a column change dominated by a record
tombstone both calls return `Ignored`. -/
theorem second_apply_not_superseded :
    (applyChange tombedState staleCol).2 = Outcome.Ignored ∧
    (applyChange (applyChange tombedState staleCol).1 staleCol).2 = Outcome.Ignored ∧
    Outcome.Ignored ≠ Outcome.Superseded := by
  have h : applyChange tombedState staleCol = (tombedState, Outcome.Ignored) :=
    applyChange_ignored tombedState staleCol (by decide)
  exact ⟨by rw [h], by simp only [h], fun hc => Outcome.noConfusion hc⟩

/-- C3 (amended): `apply` is idempotent on the stored state — applying the
same change twice leaves the state exactly as after the first call — and the
second call returns `Superseded`, except when the change is tombstone-dominated,
in which case both calls return `Ignored`. -/
theorem apply_idempotent {K V : Type} [DecidableEq K] (s : CrdtState K V)
    (c : Change K V) :
    applyChange (applyChange s c).1 c =
      ((applyChange s c).1,
        if (applyChange s c).2 = Outcome.Ignored then Outcome.Ignored
        else Outcome.Superseded) :=
  applyChange_idem_core s c

/-- C5: record-level tombstone dominance — when the record's tombstone entry
(`col_name = none`) has a `col_version` strictly greater than an incoming
column-level change's `col_version`, the change yields `Ignored` and the
stored state (in particular the record's tombstone) is left unchanged,
whatever the column's own stored entry and version are. -/
theorem tombstone_dominance {K V : Type} [DecidableEq K] (s : CrdtState K V)
    (c : Change K V) (tomb : Entry V) (x : CrdtKey)
    (htomb : s.table c.record_id none = some tomb)
    (hx : c.col_name = some x)
    (hlt : c.col_version < tomb.col_version) :
    applyChange s c = (s, Outcome.Ignored) := by
  apply applyChange_ignored
  unfold tombOk
  rw [hx, htomb]
  simp [hlt]

/-- Witness for C5 at the spec §8 scenario: tombstone at `col_version = 5`,
column change at `col_version = 3`, outcome `Ignored`, state unchanged. -/
theorem tombstone_dominance_witness :
    applyChange tombedState staleCol = (tombedState, Outcome.Ignored) :=
  tombstone_dominance tombedState staleCol tombChange.entry "name"
    rfl rfl (by decide)

/-- C4 counterexample: the claim that a present local entry is always decided
by the lexicographic comparison is false — with a record tombstone at
`col_version = 5`, a column entry at `col_version = 1` and an incoming column
change at `col_version = 3`, the incoming change is lexicographically greater
than the local entry yet the outcome is `Ignored` and nothing is stored. -/
theorem lex_not_sole_decider :
    s2.table staleCol.record_id staleCol.col_name = some lowCol.entry ∧
    tripleLtB lowCol.entry.triple staleCol.triple = true ∧
    applyChange s2 staleCol = (s2, Outcome.Ignored) :=
  ⟨rfl, by decide, applyChange_ignored s2 staleCol (by decide)⟩

/-- C4 (amended): when a local entry exists for the incoming change's
`(record_id, col_name)` key and no record-level tombstone with a strictly
greater `col_version` preempts the change (which would yield `Ignored`),
`apply` decides the winner by the lexicographic comparison of
`(col_version, db_version, node_id)`: a lexicographically greater incoming
change is stored and `Applied`, otherwise the change is `Superseded`; in
particular, on equal `col_version` and `db_version` the higher `node_id`
wins, and for two such tie-breaking changes the stored table is the same in
either application order. -/
theorem lex_decides {K V : Type} [DecidableEq K] (s : CrdtState K V)
    (c : Change K V) (e : Entry V)
    (he : s.table c.record_id c.col_name = some e)
    (hok : tombOk s.table c = true) :
    (tripleLtB e.triple c.triple = true →
      applyChange s c =
        (⟨setEntry s.table c.record_id c.col_name c.entry, s.log ++ [c]⟩,
          Outcome.Applied)) ∧
    (tripleLtB e.triple c.triple = false →
      applyChange s c = (s, Outcome.Superseded)) ∧
    (e.col_version = c.col_version → e.db_version = c.db_version →
      (e.node_id < c.node_id → (applyChange s c).2 = Outcome.Applied) ∧
      (c.node_id < e.node_id → applyChange s c = (s, Outcome.Superseded))) ∧
    (∀ c2 : Change K V, c2.record_id = c.record_id → c2.col_name = c.col_name →
      c2.triple ≠ c.triple →
      ((applyChange (applyChange s c).1 c2).1).table =
        ((applyChange (applyChange s c2).1 c).1).table) := by
  refine ⟨?_, ?_, ?_, ?_⟩
  · intro hlt
    exact applyChange_applied s c hok (by simp [wins, he, hlt])
  · intro hlt
    exact applyChange_superseded s c hok (by simp [wins, he, hlt])
  · intro hcv hdv
    constructor
    · intro hnid
      have hlt : tripleLtB e.triple c.triple = true := by
        rw [tripleLtB_iff]
        simp only [Entry.triple, Change.triple]
        simp only [Fin.ext_iff] at hcv hdv
        rw [Fin.lt_def] at hnid
        omega
      rw [applyChange_applied s c hok (by simp [wins, he, hlt])]
    · intro hnid
      have hlt : tripleLtB e.triple c.triple = false := by
        cases h : tripleLtB e.triple c.triple with
        | false => rfl
        | true =>
          exfalso
          rw [tripleLtB_iff] at h
          simp only [Entry.triple, Change.triple] at h
          simp only [Fin.ext_iff] at hcv hdv
          rw [Fin.lt_def] at hnid
          omega
      exact applyChange_superseded s c hok (by simp [wins, he, hlt])
  · intro c2 h1 h2 h3
    exact applyChange_comm_core s c c2 h1.symm h2.symm (fun hh => h3 hh.symm)

/-- Witness for C4 at the spec §8 scenario: with Alice's entry stored, Bob's
lexicographically greater change is stored and `Applied`. -/
theorem lex_decides_witness :
    applyChange sA cB =
      (⟨setEntry sA.table cB.record_id cB.col_name cB.entry, sA.log ++ [cB]⟩,
        Outcome.Applied) :=
  (lex_decides sA cB cA.entry rfl (by decide)).1 (by decide)

/-- C6 counterexample: the claim that `flags` (and `local_db_version`) are not
fields of the synchronized `Change` struct is false — both are declared
members (crdt_types.hpp lines 31 and 34) and a constructed `Change` carries
them. -/
theorem change_carries_flags :
    (Change.make 7 none (none : Option String) 1 1 1 3 7 : Change Nat String).flags = 7 ∧
    (Change.make 7 none (none : Option String) 1 1 1 3 7 : Change Nat String).local_db_version = 3 :=
  ⟨rfl, rfl⟩

/-- C6 (amended): `flags` and `local_db_version` are ordinary fields of the
`Change` struct itself — the code keeps no separate side-table — so every
flags/local-version combination is carried by some `Change` value, and keeping
them off the wire is an obligation on the (out-of-scope) serializer, not
enforced by the type. -/
theorem flags_are_struct_fields (f : U32) (l : U64) :
    ∃ c : Change Nat String, c.flags = f ∧ c.local_db_version = l :=
  ⟨Change.make 0 none none 0 0 0 l f, rfl, rfl⟩

/-- C7 counterexample: the claim that a stored change can only be superseded
by a change with a strictly higher `col_version` is false — Bob's change has
the same `col_version` as Alice's stored entry (winning on `db_version`) and
still replaces it. -/
theorem superseded_without_higher_col_version :
    sA.table 42 (some "name") = some cA.entry ∧
    cB.col_version = cA.col_version ∧
    cB.entry ≠ cA.entry ∧
    ((applyChange sA cB).1).table 42 (some "name") = some cB.entry := by
  have h : applyChange sA cB =
      (⟨setEntry sA.table cB.record_id cB.col_name cB.entry, sA.log ++ [cB]⟩,
        Outcome.Applied) :=
    applyChange_applied sA cB (by decide) (by decide)
  refine ⟨rfl, rfl, by decide, ?_⟩
  rw [h]
  rfl

/-- C7 (amended): a change that entered the Change Log is never mutated —
`apply` only appends to the log — and a stored current-winner entry is only
replaced by the entry of a change that is strictly greater in the
lexicographic `(col_version, db_version, node_id)` order; a strictly higher
`col_version` is not required (equal `col_version` with a higher `db_version`,
or equal both with a higher `node_id`, also supersedes). -/
theorem log_append_only_lex_supersede {K V : Type} [DecidableEq K]
    (s : CrdtState K V) (c : Change K V) :
    (((applyChange s c).1).log = s.log ∨
      ((applyChange s c).1).log = s.log ++ [c]) ∧
    (∀ (r : K) (n : Option CrdtKey) (e : Entry V),
      s.table r n = some e →
      ((applyChange s c).1).table r n ≠ some e →
      r = c.record_id ∧ n = c.col_name ∧
      ((applyChange s c).1).table r n = some c.entry ∧
      tripleLtB e.triple c.triple = true) := by
  constructor
  · exact applyChange_log s c
  · intro r n e he hch
    rw [applyChange_table_pt] at hch ⊢
    by_cases hcond : r = c.record_id ∧ n = c.col_name ∧ tombOk s.table c = true
    · rw [if_pos hcond] at hch ⊢
      rw [he] at hch ⊢
      by_cases hlt : tripleLtB e.triple c.triple = true
      · exact ⟨hcond.1, hcond.2.1, by simp [oStep, hlt], hlt⟩
      · exfalso
        apply hch
        simp only [Bool.not_eq_true] at hlt
        simp [oStep, hlt]
    · rw [if_neg hcond] at hch
      exact absurd he hch

/-- Witness for C7 (amended): the replacement of Alice's entry by Bob's is an
instance of lexicographic supersession. -/
theorem log_append_only_lex_supersede_witness :
    ((applyChange sA cB).1).table 42 (some "name") = some cB.entry ∧
    tripleLtB cA.entry.triple cB.triple = true := by
  have hne : ((applyChange sA cB).1).table 42 (some "name") ≠ some cA.entry := by
    rw [applyChange_applied sA cB (by decide) (by decide)]
    decide
  have h := (log_append_only_lex_supersede sA cB).2 42 (some "name") cA.entry
    rfl hne
  exact ⟨h.2.2.1, h.2.2.2⟩

/-- C8: `CrdtNodeId` is an unsigned 64-bit integer — every `node_id` stored in
a `Change` is a value in `[0, 2^64 - 1]`, and the comparison on node ids is
total. -/
theorem node_id_is_uint64 :
    (∀ (K V : Type) (c : Change K V), c.node_id.val ≤ 2 ^ 64 - 1) ∧
    (∀ a b : CrdtNodeId, a < b ∨ a = b ∨ b < a) := by
  constructor
  · intro K V c
    have h := c.node_id.isLt
    omega
  · intro a b
    exact lt_trichotomy a b

/-- C9: the parameterized constructor stores all six leading arguments
unchanged, stores the two trailing arguments unchanged when given, and
substitutes `local_db_version = 0` and `flags = 0` when they are omitted. -/
theorem make_preserves_arguments {K V : Type} (rid : K) (cname : Option CrdtKey)
    (val : Option V) (cver dver : U64) (nid : CrdtNodeId) (ldb : U64) (f : U32) :
    (Change.make rid cname val cver dver nid ldb f).record_id = rid ∧
    (Change.make rid cname val cver dver nid ldb f).col_name = cname ∧
    (Change.make rid cname val cver dver nid ldb f).value = val ∧
    (Change.make rid cname val cver dver nid ldb f).col_version = cver ∧
    (Change.make rid cname val cver dver nid ldb f).db_version = dver ∧
    (Change.make rid cname val cver dver nid ldb f).node_id = nid ∧
    (Change.make rid cname val cver dver nid ldb f).local_db_version = ldb ∧
    (Change.make rid cname val cver dver nid ldb f).flags = f ∧
    (Change.makeDefault rid cname val cver dver nid).local_db_version = 0 ∧
    (Change.makeDefault rid cname val cver dver nid).flags = 0 ∧
    Change.makeDefault rid cname val cver dver nid =
      Change.make rid cname val cver dver nid 0 0 :=
  ⟨rfl, rfl, rfl, rfl, rfl, rfl, rfl, rfl, rfl, rfl, rfl⟩
